import Mathlib

/-!
Verification development for the California Housing serving/observability core
(`api/app` of the SEM3_MLOPS repository).

The Python source is shallowly embedded:
  * Python `dict` values are association lists `List (String × β)` whose
    mutation (`d[k] = v`) is `dictInsert` (update-in-place if the key exists,
    append otherwise) and whose reads (`d.get(k)` / `d[k]`) are `alookup`.
  * Python floats are modelled by `PyFloat`: an exact rational together with
    the IEEE special values `inf`, `ninf` and `nan`.  Arithmetic is exact
    rational arithmetic extended with the IEEE rules for division by zero and
    for the special values; the model agrees with binary64 on every input at
    which the IEEE operations are exact, in particular at all the concrete
    inputs used in the theorems below.
  * `json.dumps(..., separators=(",", ":"), ensure_ascii=False)` is
    `pyDumps`, `hashlib.sha256` is `sha256Bytes` (FIPS 180-4 over byte
    lists), `.encode("utf-8")` is `utf8Encode`.
  * Fallible I/O (model-artifact loading, the scikit-learn model call) is
    passed in as `Except` values; wall-clock readings and the generated
    UUID are parameters.
-/

/-- A Python scalar value as it appears in log-record attribute bags:
`None`, an `int`, or a `str`.  (Floats are kept in the separate `PyFloat`
model; where a function of the source is generic in the value type — such
as `features_hash`, whose payload is `Dict[str, Any]` — the embedding is
generic in the value type together with its JSON rendering.) -/
inductive PyVal where
  | none
  | int (n : Int)
  | str (s : String)
deriving DecidableEq, Repr

/-- Python truthiness of a `PyVal` (`bool(v)`). -/
def pyTruthy : PyVal → Bool
  | PyVal.none => false
  | PyVal.int n => n ≠ 0
  | PyVal.str s => s ≠ ""

/-- Association-list lookup; the embedding of `d.get(k)` on a Python dict
(dicts have unique keys, so first-match lookup is exact). -/
def alookup {β : Type} (k : String) : List (String × β) → Option β
  | [] => Option.none
  | p :: ps => if p.1 = k then some p.2 else alookup k ps

/-- The embedding of the Python dict assignment `d[k] = v`: if the key is
present its value is updated in place (insertion order kept), otherwise the
pair is appended. -/
def dictInsert {β : Type} (d : List (String × β)) (k : String) (v : β) :
    List (String × β) :=
  if (alookup k d).isSome then
    d.map (fun p => if p.1 = k then (k, v) else p)
  else
    d ++ [(k, v)]

/-- Lowercase hexadecimal digit. -/
def hexDigitChar (n : Nat) : Char :=
  if n < 10 then Char.ofNat (48 + n) else Char.ofNat (87 + n)

/-- Escape of one character inside a JSON string, as produced by Python's
`json.dumps` with `ensure_ascii=False`: only the quote, the backslash and
control characters are escaped; everything else is emitted verbatim. -/
def jsonEscapeChar (c : Char) : List Char :=
  if c = '"' then ['\\', '"']
  else if c = '\\' then ['\\', '\\']
  else if c.toNat = 8 then ['\\', 'b']
  else if c.toNat = 9 then ['\\', 't']
  else if c.toNat = 10 then ['\\', 'n']
  else if c.toNat = 12 then ['\\', 'f']
  else if c.toNat = 13 then ['\\', 'r']
  else if c.toNat < 32 then
    ['\\', 'u', '0', '0', hexDigitChar (c.toNat / 16), hexDigitChar (c.toNat % 16)]
  else [c]

/-- JSON rendering of a string (quoted and escaped). -/
def renderString (s : String) : String :=
  String.mk ('"' :: s.data.foldr (fun c acc => jsonEscapeChar c ++ acc) ['"'])

/-- JSON rendering of a `PyVal` as `json.dumps` renders the value. -/
def renderVal : PyVal → String
  | PyVal.none => "null"
  | PyVal.int n => toString n
  | PyVal.str s => renderString s

/-- Rendering of an optional value: Python `None` renders as `null`. -/
def renderOpt {β : Type} (render : β → String) : Option β → String
  | Option.none => "null"
  | some v => render v

/-- Compact JSON serialization of a dict, as
`json.dumps(data, separators=(",", ":"), ensure_ascii=False)`: no
extraneous whitespace, pairs in the dict's insertion order. -/
def pyDumps {β : Type} (render : β → String) (pairs : List (String × β)) : String :=
  "\x7b" ++
    String.intercalate ","
      (pairs.map (fun p => renderString p.1 ++ ":" ++ render p.2)) ++
  "\x7d"

/-- UTF-8 bytes of one Unicode code point. -/
def utf8Char (c : Char) : List Nat :=
  let n := c.toNat
  if n < 128 then [n]
  else if n < 2048 then [192 + n / 64, 128 + n % 64]
  else if n < 65536 then [224 + n / 4096, 128 + n / 64 % 64, 128 + n % 64]
  else [240 + n / 262144, 128 + n / 4096 % 64, 128 + n / 64 % 64, 128 + n % 64]

/-- UTF-8 encoding of a string (`s.encode("utf-8")`), as a byte list. -/
def utf8Encode (s : String) : List Nat :=
  s.data.foldr (fun c acc => utf8Char c ++ acc) []

/-- Truncation to a 32-bit word. -/
def w32 (n : Nat) : Nat := n % 4294967296

/-- Right rotation of a 32-bit word by `n` places. -/
def rotr32 (n x : Nat) : Nat :=
  w32 (x / 2 ^ n + x % 2 ^ n * 2 ^ (32 - n))

/-- SHA-256 big sigma-0. -/
def bSig0 (x : Nat) : Nat := rotr32 2 x ^^^ rotr32 13 x ^^^ rotr32 22 x

/-- SHA-256 big sigma-1. -/
def bSig1 (x : Nat) : Nat := rotr32 6 x ^^^ rotr32 11 x ^^^ rotr32 25 x

/-- SHA-256 small sigma-0 (the last term is a right shift by 3). -/
def sSig0 (x : Nat) : Nat := rotr32 7 x ^^^ rotr32 18 x ^^^ x / 8

/-- SHA-256 small sigma-1 (the last term is a right shift by 10). -/
def sSig1 (x : Nat) : Nat := rotr32 17 x ^^^ rotr32 19 x ^^^ x / 1024

/-- SHA-256 choose function (the complement of a 32-bit word is
`4294967295 - x`). -/
def chooseFn (x y z : Nat) : Nat := (x &&& y) ^^^ ((4294967295 - x) &&& z)

/-- SHA-256 majority function. -/
def majFn (x y z : Nat) : Nat := (x &&& y) ^^^ (x &&& z) ^^^ (y &&& z)

/-- The 64 SHA-256 round constants (FIPS 180-4, §4.2.2). -/
def sha256K : List Nat :=
  [1116352408, 1899447441, 3049323471, 3921009573, 961987163, 1508970993,
   2453635748, 2870763221, 3624381080, 310598401, 607225278, 1426881987,
   1925078388, 2162078206, 2614888103, 3248222580, 3835390401, 4022224774,
   264347078, 604807628, 770255983, 1249150122, 1555081692, 1996064986,
   2554220882, 2821834349, 2952996808, 3210313671, 3336571891, 3584528711,
   113926993, 338241895, 666307205, 773529912, 1294757372, 1396182291,
   1695183700, 1986661051, 2177026350, 2456956037, 2730485921, 2820302411,
   3259730800, 3345764771, 3516065817, 3600352804, 4094571909, 275423344,
   430227734, 506948616, 659060556, 883997877, 958139571, 1322822218,
   1537002063, 1747873779, 1955562222, 2024104815, 2227730452, 2361852424,
   2428436474, 2756734187, 3204031479, 3329325298]

/-- The SHA-256 initial hash value (FIPS 180-4, §5.3.3). -/
def sha256H0 : List Nat :=
  [1779033703, 3144134277, 1013904242, 2773480762, 1359893119, 2600822924,
   528734635, 1541459225]

/-- SHA-256 padding: append the byte `0x80`, then zero bytes until the
length is 56 mod 64, then the bit length as 8 big-endian bytes. -/
def sha256Pad (msg : List Nat) : List Nat :=
  let bitLen := 8 * msg.length
  let k := (119 - msg.length % 64) % 64
  msg ++ [128] ++ List.replicate k 0 ++
    ([56, 48, 40, 32, 24, 16, 8, 0].map (fun i => bitLen / 2 ^ i % 256))

/-- The `j`-th big-endian 32-bit word of a 64-byte chunk. -/
def wordAt (chunk : List Nat) (j : Nat) : Nat :=
  chunk.getD (4 * j) 0 * 16777216 + chunk.getD (4 * j + 1) 0 * 65536 +
    chunk.getD (4 * j + 2) 0 * 256 + chunk.getD (4 * j + 3) 0

/-- Extension of the 16 message-schedule words to 64 (FIPS 180-4, §6.2.2). -/
def extendW (w : List Nat) : List Nat :=
  (List.range 48).foldl
    (fun ws _ =>
      let t := ws.length
      ws ++ [w32 (sSig1 (ws.getD (t - 2) 0) + ws.getD (t - 7) 0 +
                  sSig0 (ws.getD (t - 15) 0) + ws.getD (t - 16) 0)])
    w

/-- The eight SHA-256 working variables. -/
structure Hash8 where
  a : Nat
  b : Nat
  c : Nat
  d : Nat
  e : Nat
  f : Nat
  g : Nat
  h : Nat
deriving DecidableEq, Repr

/-- One SHA-256 compression round, consuming one `(constant, word)` pair. -/
def sha256Round (st : Hash8) (kw : Nat × Nat) : Hash8 :=
  let t1 := w32 (st.h + bSig1 st.e + chooseFn st.e st.f st.g + kw.1 + kw.2)
  let t2 := w32 (bSig0 st.a + majFn st.a st.b st.c)
  ⟨w32 (t1 + t2), st.a, st.b, st.c, w32 (st.d + t1), st.e, st.f, st.g⟩

/-- Processing of one 64-byte chunk. -/
def sha256Chunk (st : Hash8) (chunk : List Nat) : Hash8 :=
  let w := extendW ((List.range 16).map (wordAt chunk))
  let r := (sha256K.zip w).foldl sha256Round st
  ⟨w32 (st.a + r.a), w32 (st.b + r.b), w32 (st.c + r.c), w32 (st.d + r.d),
   w32 (st.e + r.e), w32 (st.f + r.f), w32 (st.g + r.g), w32 (st.h + r.h)⟩

/-- Big-endian bytes of a 32-bit word. -/
def wordBytes (v : Nat) : List Nat :=
  [v / 16777216 % 256, v / 65536 % 256, v / 256 % 256, v % 256]

/-- SHA-256 digest of a byte list (`hashlib.sha256(bs).digest()`). -/
def sha256Bytes (msg : List Nat) : List Nat :=
  let padded := sha256Pad msg
  let chunks := (List.range (padded.length / 64)).map
    (fun i => (padded.drop (64 * i)).take 64)
  let st := chunks.foldl sha256Chunk
    ⟨sha256H0.getD 0 0, sha256H0.getD 1 0, sha256H0.getD 2 0, sha256H0.getD 3 0,
     sha256H0.getD 4 0, sha256H0.getD 5 0, sha256H0.getD 6 0, sha256H0.getD 7 0⟩
  ([st.a, st.b, st.c, st.d, st.e, st.f, st.g, st.h].map wordBytes).foldr
    (fun bs acc => bs ++ acc) []

/-- Lowercase hexadecimal rendering of a byte list
(`hashlib.sha256(bs).hexdigest()`). -/
def bytesToHex (bs : List Nat) : String :=
  String.mk (bs.foldr
    (fun b acc => hexDigitChar (b / 16 % 16) :: hexDigitChar (b % 16) :: acc) [])

/-- Lexicographic sort of a list of strings, the embedding of Python
`sorted` on `dict` keys (both orders compare by Unicode code points). -/
def sortStrings (l : List String) : List String :=
  l.mergeSort (fun a b => decide (a ≤ b))

/-- Embedding of `features_hash(payload, ordered_keys)` from
`api/app/utils/logging.py` (lines 171-180), generic in the payload value
type `β` (the source's `Dict[str, Any]`) together with the JSON rendering
`render` of a value (Python renders each scalar value independently and
deterministically).  `if ordered_keys:` is Python truthiness, so an empty
key list takes the sorted-keys branch; `payload.get(k)` yields `None`
(rendered `null`) for a missing key; the sorted branch reads `payload[k]`
for keys of the payload, which `alookup` models exactly. -/
def features_hash {β : Type} (render : β → String)
    (payload : List (String × β)) (ordered_keys : Option (List String)) : String :=
  let data : List (String × Option β) :=
    match ordered_keys with
    | some ks =>
      if ks.isEmpty then
        (sortStrings (payload.map Prod.fst)).foldl
          (fun d k => dictInsert d k (alookup k payload)) []
      else
        ks.foldl (fun d k => dictInsert d k (alookup k payload)) []
    | Option.none =>
      (sortStrings (payload.map Prod.fst)).foldl
        (fun d k => dictInsert d k (alookup k payload)) []
  let as_json := pyDumps (renderOpt render) data
  (bytesToHex (sha256Bytes (utf8Encode as_json))).take 16

/-- Follows the claim's words, for comparison with `features_hash`: the
Feature Fingerprint of an ordered list of key-value pairs is the first 16
hexadecimal characters of the SHA-256 digest of the UTF-8 bytes of the
compact (no extraneous whitespace) JSON serialization of those pairs. -/
def fingerprint_spec {β : Type} (render : β → String)
    (pairs : List (String × Option β)) : String :=
  (bytesToHex (sha256Bytes (utf8Encode (pyDumps (renderOpt render) pairs)))).take 16

/-- A Python/IEEE-754 float, modelled as an exact rational extended with
the special values.  Arithmetic below is exact where IEEE arithmetic is
exact; the concrete inputs of the theorems are chosen so that every
intermediate IEEE result is exact, hence the model is faithful there.
Signed zero is not distinguished. -/
inductive PyFloat where
  | fin (q : ℚ)
  | inf
  | ninf
  | nan
deriving DecidableEq, Repr

/-- Whether a float value is finite (neither an infinity nor NaN). -/
def PyFloat.isFinite : PyFloat → Bool
  | PyFloat.fin _ => true
  | _ => false

/-- Float multiplication (exact on finite exact inputs; IEEE rules for the
special values). -/
def pyMul : PyFloat → PyFloat → PyFloat
  | PyFloat.fin a, PyFloat.fin b => PyFloat.fin (a * b)
  | PyFloat.fin a, PyFloat.inf =>
    if 0 < a then PyFloat.inf else if a < 0 then PyFloat.ninf else PyFloat.nan
  | PyFloat.inf, PyFloat.fin b =>
    if 0 < b then PyFloat.inf else if b < 0 then PyFloat.ninf else PyFloat.nan
  | PyFloat.fin a, PyFloat.ninf =>
    if 0 < a then PyFloat.ninf else if a < 0 then PyFloat.inf else PyFloat.nan
  | PyFloat.ninf, PyFloat.fin b =>
    if 0 < b then PyFloat.ninf else if b < 0 then PyFloat.inf else PyFloat.nan
  | PyFloat.inf, PyFloat.inf => PyFloat.inf
  | PyFloat.inf, PyFloat.ninf => PyFloat.ninf
  | PyFloat.ninf, PyFloat.inf => PyFloat.ninf
  | PyFloat.ninf, PyFloat.ninf => PyFloat.inf
  | _, _ => PyFloat.nan

/-- Float division under numpy/pandas element-wise semantics: a finite
nonzero value divided by zero yields a signed infinity (a warning, never a
raised fault), `0/0` yields NaN. -/
def pyDiv : PyFloat → PyFloat → PyFloat
  | PyFloat.fin a, PyFloat.fin b =>
    if b = 0 then
      (if a = 0 then PyFloat.nan else if 0 < a then PyFloat.inf else PyFloat.ninf)
    else PyFloat.fin (a / b)
  | PyFloat.fin _, PyFloat.inf => PyFloat.fin 0
  | PyFloat.fin _, PyFloat.ninf => PyFloat.fin 0
  | PyFloat.inf, PyFloat.fin b => if b < 0 then PyFloat.ninf else PyFloat.inf
  | PyFloat.ninf, PyFloat.fin b => if b < 0 then PyFloat.inf else PyFloat.ninf
  | _, _ => PyFloat.nan

/-- The validated feature record (`HousingFeatures` of
`api/app/models/schemas.py`): eight numeric fields. -/
structure HousingFeatures where
  MedInc : PyFloat
  HouseAge : PyFloat
  AveRooms : PyFloat
  AveBedrms : PyFloat
  Population : PyFloat
  AveOccup : PyFloat
  Latitude : PyFloat
  Longitude : PyFloat
deriving DecidableEq, Repr

/-- The source's fixed key order for the feature fingerprint
(`prediction.py`, line 31). -/
def ordered_keys : List String :=
  ["MedInc", "HouseAge", "AveRooms", "AveBedrms", "Population", "AveOccup",
   "Latitude", "Longitude"]

/-- The expected feature-vector column order (`prediction.py`, lines
59-61): the eight raw fields followed by the derived one. -/
def expected_columns : List String :=
  ["MedInc", "HouseAge", "AveRooms", "AveBedrms", "Population", "AveOccup",
   "Latitude", "Longitude", "rooms_per_person"]

/-- Embedding of `features.dict()`: the pydantic record as a dict in
field-declaration order. -/
def featDict (f : HousingFeatures) : List (String × PyFloat) :=
  [("MedInc", f.MedInc), ("HouseAge", f.HouseAge), ("AveRooms", f.AveRooms),
   ("AveBedrms", f.AveBedrms), ("Population", f.Population),
   ("AveOccup", f.AveOccup), ("Latitude", f.Latitude),
   ("Longitude", f.Longitude)]

/-- The serving-side engineered feature, exactly as computed by
`prediction.py` line 56: `df["rooms_per_person"] = df["AveRooms"] /
df["Population"]`. -/
def rooms_per_person (f : HousingFeatures) : PyFloat :=
  pyDiv f.AveRooms f.Population

/-- The single-row feature vector passed to the model
(`df = df[expected_columns]`, `prediction.py` lines 53-62). -/
def featureVector (f : HousingFeatures) : List PyFloat :=
  let df := featDict f ++ [("rooms_per_person", rooms_per_person f)]
  expected_columns.map (fun k => (alookup k df).getD PyFloat.nan)

/-- The training-side engineered feature from
`data/scripts/03_feature_engineering.py` lines 106-107 (the formula the
spec states for serving):
`population_safe = df["Population"].replace(0, 1)`;
`rooms_per_person = df["AveRooms"] * df["AveOccup"] / population_safe`. -/
def engineer_features_rpp (aveRooms aveOccup population : PyFloat) : PyFloat :=
  let population_safe := if population = PyFloat.fin 0 then PyFloat.fin 1 else population
  pyDiv (pyMul aveRooms aveOccup) population_safe

/-- The two Prometheus counters of `prediction.py` (lines 13-14). -/
structure Metrics where
  requests : Nat
  successes : Nat
deriving DecidableEq, Repr

/-- The handler's outcome: a response body, or the `HTTPException` raised
on the failure path. -/
inductive HandlerOutcome where
  | ok (predicted_value : PyFloat)
  | httpError (status : Nat) (detail : String)
deriving DecidableEq, Repr

/-- Embedding of the handler `predict_housing_price` of
`api/app/routers/prediction.py` (lines 18-108).  `floatRender` is Python's
deterministic JSON rendering of a float; `load` is the outcome of
`load_model()` for this call; `modelPredict` is the outcome of
`model.predict(df)` followed by `float(...)`.  Returned alongside the
outcome are the final counters and the emitted log events as
`(event, features_hash)` pairs, in order. -/
def predict_housing_price (floatRender : PyFloat → String)
    (load : Except String Nat)
    (modelPredict : Nat → List PyFloat → Except String PyFloat)
    (f : HousingFeatures) (m : Metrics) :
    HandlerOutcome × Metrics × List (String × String) :=
  let m1 : Metrics := ⟨m.requests + 1, m.successes⟩
  let fhash := features_hash floatRender (featDict f) (some ordered_keys)
  let received := [("prediction_request_received", fhash)]
  match load with
  | Except.error e =>
    (HandlerOutcome.httpError 500 ("Prediction failed: " ++ e), m1,
     received ++ [("prediction_failed", fhash)])
  | Except.ok model =>
    match modelPredict model (featureVector f) with
    | Except.error e =>
      (HandlerOutcome.httpError 500 ("Prediction failed: " ++ e), m1,
       received ++ [("prediction_failed", fhash)])
    | Except.ok v =>
      (HandlerOutcome.ok v, ⟨m1.requests, m1.successes + 1⟩,
       received ++ [("prediction_completed", fhash)])

/-- One call of `load_model()` of `api/app/services/model_loader.py`,
wrapped by `functools.lru_cache(maxsize=1)` on a nullary function: `cache`
is the decorator's stored value; `env` is the outcome one execution of the
body would have (success with a handle, or a raised load error).  Returns
the call's result, the new cache, and whether the load path (storage
access) executed.  CPython's `lru_cache` stores only results of calls that
return; a raised exception is propagated and nothing is stored. -/
def load_model_call (env : Except String Nat) (cache : Option Nat) :
    Except String Nat × Option Nat × Bool :=
  match cache with
  | some h => (Except.ok h, some h, false)
  | Option.none =>
    match env with
    | Except.ok h => (Except.ok h, some h, true)
    | Except.error e => (Except.error e, Option.none, true)

/-- A sequence of non-interleaved `load_model()` calls, each with its own
body outcome: returns the results in order, the final cache, and the total
number of load-path executions. -/
def runLoadCalls (envs : List (Except String Nat)) (cache : Option Nat) :
    List (Except String Nat) × Option Nat × Nat :=
  match envs with
  | [] => ([], cache, 0)
  | env :: rest =>
    let r := load_model_call env cache
    let t := runLoadCalls rest r.2.1
    (r.1 :: t.1, t.2.1, (if r.2.2 then 1 else 0) + t.2.2)

/-- Per-caller phase in the interleaved cache protocol: has not yet read
the cache, has read a miss and is about to execute the body, or finished
having observed handle `h`. -/
inductive LruPhase where
  | waiting
  | loading
  | done (h : Nat)
deriving DecidableEq, Repr

/-- Shared state of the interleaved protocol: the decorator's cache, the
count of body executions (also used to number the distinct handles the
executions produce), and each caller's phase. -/
structure LruState where
  cache : Option Nat
  loads : Nat
  phases : List LruPhase
deriving DecidableEq, Repr

/-- An atomic step by caller `i` of CPython's `lru_cache` wrapper, whose
call protocol is: read the cache (`check`); on a hit return the cached
handle, on a miss call the wrapped function and then store and return its
own result (`callLoad`).  No lock is held between the read and the store,
so steps of distinct callers may interleave. -/
inductive LruAct where
  | check (i : Nat)
  | callLoad (i : Nat)
deriving DecidableEq, Repr

/-- One step of the interleaved protocol. -/
def lruStep (s : LruState) : LruAct → LruState
  | LruAct.check i =>
    match s.phases.getD i LruPhase.waiting, s.cache with
    | LruPhase.waiting, some h => ⟨s.cache, s.loads, s.phases.set i (LruPhase.done h)⟩
    | LruPhase.waiting, Option.none => ⟨s.cache, s.loads, s.phases.set i LruPhase.loading⟩
    | _, _ => s
  | LruAct.callLoad i =>
    match s.phases.getD i LruPhase.waiting with
    | LruPhase.loading =>
      ⟨some s.loads, s.loads + 1, s.phases.set i (LruPhase.done s.loads)⟩
    | _ => s

/-- Run of a schedule of interleaved steps. -/
def lruRun (acts : List LruAct) (s : LruState) : LruState := acts.foldl lruStep s

/-- Initial state for `n` first-time callers: empty cache, no loads. -/
def lruInit (n : Nat) : LruState :=
  ⟨Option.none, 0, List.replicate n LruPhase.waiting⟩

/-- Sequence of `n` complete, non-interleaved `load_model()` calls against
an initially given cache, where the `l`-th body execution produces the
distinct handle `l`: returns the handles the callers observe, the final
cache and the total number of body executions.  This is the execution of
the `lru_cache` protocol when the calls do not interleave — as on this
service's single-threaded event loop, where the synchronous `load_model()`
body contains no suspension point. -/
def seqGetModel : Nat → Option Nat → Nat → List Nat × Option Nat × Nat
  | 0, c, l => ([], c, l)
  | n + 1, c, l =>
    match c with
    | some h =>
      let r := seqGetModel n (some h) l
      (h :: r.1, r.2)
    | Option.none =>
      let r := seqGetModel n (some l) (l + 1)
      (l :: r.1, r.2)

/-- The default completion-logging exclusion set of
`api/app/utils/logging.py` (lines 26-30). -/
def EXCLUDE_PATHS : List String := ["/health", "/metrics"]

/-- The default service name (`SERVICE_NAME`, `logging.py` line 18). -/
def SERVICE_NAME : String := "california_housing_api"

/-- The default environment tag (`APP_ENV`, `logging.py` line 19). -/
def APP_ENV : String := "production"

/-- Python truthiness of an optional string (`if s:` on a header value
that may be absent): true exactly for a present, non-empty value. -/
def pyTruthyStr : Option String → Bool
  | some s => s ≠ ""
  | Option.none => false

/-- ASCII whitespace as Python's `str.strip()` removes it (the Unicode
whitespace code points a header value never carries are not modelled). -/
def isSpaceChar (c : Char) : Bool :=
  c = ' ' || c.toNat = 9 || c.toNat = 10 || c.toNat = 13 || c.toNat = 11 || c.toNat = 12

/-- Embedding of Python `s.strip()`: drop leading and trailing whitespace. -/
def pyStrip (s : String) : String :=
  String.mk (((s.data.dropWhile isSpaceChar).reverse.dropWhile isSpaceChar).reverse)

/-- Embedding of Python `s.split(",")[0]`: the characters before the first
comma (the whole string when there is no comma). -/
def firstCommaToken (s : String) : String :=
  String.mk (s.data.takeWhile (fun c => c ≠ ','))

/-- Embedding of `client_ip_from_request` (`logging.py` lines 109-119):
prefer the `x-forwarded-for` header (first comma-separated token,
whitespace-stripped), then the `x-real-ip` header (stripped), then the
transport-level peer address, else the empty string.  A header is used
only when present with a non-empty value (Python truthiness: an absent
header and an empty header value are equivalent). -/
def client_ip_from_request (xff xrip client : Option String) : String :=
  if pyTruthyStr xff then pyStrip (firstCommaToken (xff.getD ""))
  else if pyTruthyStr xrip then pyStrip (xrip.getD "")
  else
    match client with
    | some host => host
    | Option.none => ""

/-- A response as the middleware sees it: status code and header dict. -/
structure HResponse where
  status_code : Nat
  headers : List (String × String)
deriving DecidableEq, Repr

/-- The structured fields of one "request completed" log event emitted by
the middleware (the latency field, a wall-clock reading, is omitted from
the model). -/
structure CompletedEvent where
  request_id : String
  client_ip : String
  route : String
  method : String
  status_code : Nat
  event : String
deriving DecidableEq, Repr

/-- The correlation id established on entry (`logging.py` line 129):
`request.headers.get("x-request-id") or str(uuid.uuid4())` — the inbound
header when present and non-empty, else the generated id. -/
def requestIdOf (inbound_id : Option String) (gen_id : String) : String :=
  if pyTruthyStr inbound_id then inbound_id.getD "" else gen_id

/-- Embedding of `RequestContextMiddleware.dispatch` (`logging.py` lines
127-156).  `handler` is the outcome of `await call_next(request)`: a
response, or an exception propagating out of it.  The `try`/`finally`
semantics are compiled in: the `finally` block always runs; when it
executes `return response` (the excluded-path branch) that return value
replaces any in-flight exception, so a raised exception is suppressed and
the still-`None` response (here `Option.none`) is what `dispatch` yields.
Returns the dispatch outcome and the emitted completion events. -/
def dispatch (path method : String) (inbound_id : Option String) (gen_id : String)
    (xff xrip client : Option String) (handler : Except String HResponse) :
    Except String (Option HResponse) × List CompletedEvent :=
  let request_id := requestIdOf inbound_id gen_id
  let response : Option HResponse :=
    match handler with
    | Except.ok r => some r
    | Except.error _ => Option.none
  let status_code : Nat :=
    match handler with
    | Except.ok r => r.status_code
    | Except.error _ => 500
  let response := response.map
    (fun r => ⟨r.status_code, dictInsert r.headers "X-Request-ID" request_id⟩)
  if path ∈ EXCLUDE_PATHS then
    (Except.ok response, [])
  else
    let ev : CompletedEvent :=
      ⟨request_id, client_ip_from_request xff xrip client, path, method,
       status_code, "request_completed"⟩
    match handler with
    | Except.ok _ => (Except.ok response, [ev])
    | Except.error e => (Except.error e, [ev])

/-- The allow-list of structured fields (`JsonFormatter.format`,
`logging.py` lines 42-46). -/
def ALLOW_KEYS : List String :=
  ["request_id", "client_ip", "route", "method", "status_code",
   "latency_ms", "event", "features_hash", "predicted_value", "error",
   "model_path"]

/-- A log record as `JsonFormatter.format` consumes it: level name,
rendered message, logger name, the attribute bag attached via `extra`
(a dict, so keys are unique), and — when `exc_info` is set — the rendered
traceback `formatException` would produce. -/
structure LogRecord where
  levelname : String
  message : String
  name : String
  extras : List (String × PyVal)
  exc_text : Option String
deriving DecidableEq, Repr

/-- The initial payload dict literal of `JsonFormatter.format`
(`logging.py` lines 35-41); `ts` is the rendered ISO-8601 timestamp of the
record (a wall-clock value, passed in). -/
def basePayload (ts : String) (r : LogRecord) : List (String × PyVal) :=
  [("ts", PyVal.str ts), ("level", PyVal.str r.levelname),
   ("service", PyVal.str SERVICE_NAME), ("env", PyVal.str APP_ENV),
   ("message", PyVal.str r.message)]

/-- The allow-list loop of `JsonFormatter.format` (lines 42-48): each
allow-listed field present on the record is copied into the payload. -/
def allowPayload (ts : String) (r : LogRecord) : List (String × PyVal) :=
  ALLOW_KEYS.foldl
    (fun d k =>
      match alookup k r.extras with
      | some v => dictInsert d k v
      | Option.none => d)
    (basePayload ts r)

/-- The payload after `payload["logger"] = record.name` (line 49). -/
def loggerPayload (ts : String) (r : LogRecord) : List (String × PyVal) :=
  dictInsert (allowPayload ts r) "logger" (PyVal.str r.name)

/-- Embedding of `JsonFormatter.format` (`logging.py` lines 34-53) up to
JSON serialization: the payload dict it builds, in insertion order.  If
exception info is present, `payload.get("error") or
self.formatException(...)` is stored under `"error"` — the explicit error
value only when truthy, the rendered traceback otherwise. -/
def formatPayload (ts : String) (r : LogRecord) : List (String × PyVal) :=
  match r.exc_text with
  | some tb =>
    let obj :=
      match alookup "error" (loggerPayload ts r) with
      | some v => if pyTruthy v then v else PyVal.str tb
      | Option.none => PyVal.str tb
    dictInsert (loggerPayload ts r) "error" obj
  | Option.none => loggerPayload ts r

/-- The serialized JSON line `JsonFormatter.format` returns. -/
def formatLine (ts : String) (r : LogRecord) : String :=
  pyDumps renderVal (formatPayload ts r)

/-- The base (non-allow-listed) payload keys every record carries. -/
def BASE_KEYS : List String := ["ts", "level", "service", "env", "message", "logger"]

/-- A valid feature record with non-zero population on which every IEEE
operation involved is exact: AveRooms 6, AveOccup 2, Population 3. -/
def recordSkew : HousingFeatures :=
  ⟨PyFloat.fin 1, PyFloat.fin 2, PyFloat.fin 6, PyFloat.fin 1, PyFloat.fin 3,
   PyFloat.fin 2, PyFloat.fin 37, PyFloat.fin (-122)⟩

/-- A valid feature record whose Population is exactly 0. -/
def recordZeroPop : HousingFeatures :=
  ⟨PyFloat.fin 1, PyFloat.fin 2, PyFloat.fin 6, PyFloat.fin 1, PyFloat.fin 0,
   PyFloat.fin 2, PyFloat.fin 37, PyFloat.fin (-122)⟩

/-- An ERROR record as the predict handler emits on failure, whose
exception has an empty rendered message (`str(e) == ""`, as for a bare
`Exception()`), together with exception info. -/
def recordEmptyErr : LogRecord :=
  ⟨"ERROR", "prediction failed", "app", [("error", PyVal.str "")],
   some "Traceback (most recent call last):"⟩

/-- An INFO record carrying an allow-listed field and a non-allow-listed
one, with no exception info. -/
def recordPlain : LogRecord :=
  ⟨"INFO", "prediction completed", "app",
   [("event", PyVal.str "prediction_completed"), ("secret", PyVal.str "x")],
   Option.none⟩

/-- An ERROR record with a truthy explicit error and exception info. -/
def recordBoom : LogRecord :=
  ⟨"ERROR", "prediction failed", "app", [("error", PyVal.str "boom")],
   some "TB"⟩

theorem alookup_append {β : Type} (k : String) (d₁ d₂ : List (String × β)) :
    alookup k (d₁ ++ d₂) =
      match alookup k d₁ with
      | some v => some v
      | Option.none => alookup k d₂ := by
  induction d₁ with
  | nil => simp [alookup]
  | cons p ps ih =>
    by_cases h : p.1 = k
    · simp [alookup, h]
    · simp [alookup, h, ih]

theorem dictInsert_of_absent {β : Type} (d : List (String × β)) (k : String) (v : β)
    (h : alookup k d = Option.none) : dictInsert d k v = d ++ [(k, v)] := by
  simp [dictInsert, h]

theorem alookup_map_replace {β : Type} (d : List (String × β)) (k k' : String)
    (v : β) (h : k' ≠ k) :
    alookup k' (d.map (fun p => if p.1 = k then (k, v) else p)) = alookup k' d := by
  induction d with
  | nil => simp [alookup]
  | cons p ps ih =>
    by_cases hp : p.1 = k
    · have hk : ¬ (k = k') := fun hkk => h hkk.symm
      have hp' : ¬ (p.1 = k') := fun hx => hk (hp ▸ hx)
      simp [alookup, hp, hk, hp', ih]
    · by_cases hq : p.1 = k'
      · simp [alookup, hp, hq, h]
      · simp [alookup, hp, hq, ih]

theorem alookup_dictInsert_ne {β : Type} (d : List (String × β)) (k k' : String)
    (v : β) (h : k' ≠ k) : alookup k' (dictInsert d k v) = alookup k' d := by
  by_cases hs : (alookup k d).isSome
  · simp only [dictInsert, hs, if_true]
    exact alookup_map_replace d k k' v h
  · have hd : alookup k d = Option.none := by
      cases hd : alookup k d with
      | none => rfl
      | some w => rw [hd] at hs; simp at hs
    rw [dictInsert_of_absent d k v hd, alookup_append]
    have hk : ¬ (k = k') := fun hkk => h hkk.symm
    cases hd' : alookup k' d with
    | none => simp [alookup, hk]
    | some w => simp

theorem alookup_dictInsert_self {β : Type} (d : List (String × β)) (k : String)
    (v : β) : alookup k (dictInsert d k v) = some v := by
  by_cases hs : (alookup k d).isSome
  · simp only [dictInsert, hs, if_true]
    induction d with
    | nil => simp [alookup] at hs
    | cons p ps ih =>
      by_cases hp : p.1 = k
      · simp [alookup, hp]
      · simp only [alookup, hp, if_false] at hs
        simp [alookup, hp, ih hs]
  · have hd : alookup k d = Option.none := by
      cases hd : alookup k d with
      | none => rfl
      | some w => rw [hd] at hs; simp at hs
    rw [dictInsert_of_absent d k v hd, alookup_append]
    simp [hd, alookup]

theorem mem_dictInsert {β : Type} (d : List (String × β)) (k a : String)
    (v b : β) (h : (a, b) ∈ dictInsert d k v) : (∃ c, (a, c) ∈ d) ∨ a = k := by
  by_cases hs : (alookup k d).isSome
  · simp only [dictInsert, hs, if_true] at h
    rcases List.mem_map.mp h with ⟨p, hp, he⟩
    by_cases hpk : p.1 = k
    · simp [hpk] at he
      exact Or.inr he.1.symm
    · simp [hpk] at he
      subst he
      exact Or.inl ⟨b, hp⟩
  · simp only [dictInsert, hs, if_false] at h
    rcases List.mem_append.mp h with hm | hm
    · exact Or.inl ⟨b, hm⟩
    · simp at hm
      exact Or.inr hm.1

theorem alookup_allowFold (extras : List (String × PyVal)) (ks : List String)
    (d : List (String × PyVal)) (k : String) :
    alookup k (ks.foldl
      (fun d k =>
        match alookup k extras with
        | some v => dictInsert d k v
        | Option.none => d) d) =
      if k ∈ ks ∧ (alookup k extras).isSome
      then alookup k extras
      else alookup k d := by
  induction ks generalizing d with
  | nil => simp
  | cons k0 ks ih =>
    rw [List.foldl_cons, ih]
    by_cases hk : k = k0
    · subst hk
      cases he : alookup k extras with
      | none => simp [he]
      | some v =>
        by_cases hmem : k ∈ ks
        · simp [he, hmem]
        · simp [he, hmem, alookup_dictInsert_self]
    · have hmc : (k ∈ k0 :: ks) = (k ∈ ks) := by
        simp [List.mem_cons, hk]
      cases he : alookup k0 extras with
      | none => simp [hmc]
      | some v => simp [hmc, alookup_dictInsert_ne _ _ _ _ hk]

theorem foldInsert_eq_map {β : Type} (get : String → Option β) (ks : List String)
    (acc : List (String × Option β)) (hfresh : ∀ k ∈ ks, alookup k acc = Option.none)
    (hnd : ks.Nodup) :
    ks.foldl (fun d k => dictInsert d k (get k)) acc =
      acc ++ ks.map (fun k => (k, get k)) := by
  induction ks generalizing acc with
  | nil => simp
  | cons k0 ks ih =>
    rw [List.foldl_cons,
        dictInsert_of_absent _ _ _ (hfresh k0 (List.mem_cons_self k0 ks)),
        ih (acc ++ [(k0, get k0)])]
    · simp
    · intro k hk
      rw [alookup_append, hfresh k (List.mem_cons_of_mem k0 hk)]
      have hne : ¬ (k0 = k) := by
        intro he
        exact (List.nodup_cons.mp hnd).1 (he ▸ hk)
      simp [alookup, hne]
    · exact (List.nodup_cons.mp hnd).2

theorem alookup_perm {β : Type} (p q : List (String × β)) (hperm : p.Perm q)
    (hnd : (p.map Prod.fst).Nodup) (k : String) : alookup k p = alookup k q := by
  induction hperm with
  | nil => rfl
  | cons x h ih =>
    simp only [alookup]
    by_cases hx : x.1 = k
    · simp [hx]
    · simp only [List.map_cons, List.nodup_cons] at hnd
      simp [hx, ih hnd.2]
  | swap x y l =>
    simp only [List.map_cons, List.nodup_cons, List.mem_cons] at hnd
    have hxy : ¬ (y.1 = x.1) := fun he => hnd.1 (Or.inl he)
    by_cases hx : x.1 = k
    · have hy : ¬ (y.1 = k) := fun he => hxy (he.trans hx.symm)
      simp [alookup, hx, hy]
    · by_cases hy : y.1 = k
      · simp [alookup, hx, hy]
      · simp [alookup, hx, hy]
  | trans h1 h2 ih1 ih2 =>
    rw [ih1 hnd, ih2 (((h1.map Prod.fst).nodup_iff).mp hnd)]

theorem sortStrings_perm (l : List String) : (sortStrings l).Perm l :=
  List.mergeSort_perm l _

theorem sortStrings_sorted (l : List String) :
    (sortStrings l).Pairwise (fun a b => a ≤ b) := by
  have h := @List.sorted_mergeSort String
    (fun a b : String => decide (a ≤ b))
    (fun a b c hab hbc => by
      simp only [decide_eq_true_eq] at *
      exact le_trans hab hbc)
    (fun a b => by
      simp only [Bool.or_eq_true, decide_eq_true_eq]
      exact le_total a b)
    l
  exact h.imp (fun hx => by simpa using hx)

theorem sortStrings_eq_of_perm (l₁ l₂ : List String) (h : l₁.Perm l₂) :
    sortStrings l₁ = sortStrings l₂ :=
  List.eq_of_perm_of_sorted
    ((sortStrings_perm l₁).trans (h.trans (sortStrings_perm l₂).symm))
    (sortStrings_sorted l₁) (sortStrings_sorted l₂)

/-- C1: the claim states that predict derives rooms_per_person =
AveRooms × AveOccup / Population and feeds the model the eight raw fields
followed by that value.  The serving code (`prediction.py` line 56)
instead computes AveRooms / Population, omitting the AveOccup factor used
by the training pipeline (`03_feature_engineering.py` line 107): at
AveRooms 6, AveOccup 2, Population 3 the code produces 2 where the claimed
formula produces 4, and the vector's ninth column carries the code's
value. -/
theorem C1_rooms_per_person_skew :
    rooms_per_person recordSkew = PyFloat.fin 2
    ∧ pyDiv (pyMul recordSkew.AveRooms recordSkew.AveOccup) recordSkew.Population
        = PyFloat.fin 4
    ∧ featureVector recordSkew =
        [PyFloat.fin 1, PyFloat.fin 2, PyFloat.fin 6, PyFloat.fin 1, PyFloat.fin 3,
         PyFloat.fin 2, PyFloat.fin 37, PyFloat.fin (-122), PyFloat.fin 2]
    ∧ rooms_per_person recordSkew ≠
        pyDiv (pyMul recordSkew.AveRooms recordSkew.AveOccup) recordSkew.Population := by
  refine ⟨?_, ?_, ?_, ?_⟩
  · norm_num [rooms_per_person, recordSkew, pyDiv]
  · norm_num [recordSkew, pyDiv, pyMul]
  · norm_num [featureVector, featDict, expected_columns, alookup, recordSkew,
      rooms_per_person, pyDiv]
    decide
  · norm_num [rooms_per_person, recordSkew, pyDiv, pyMul]

/-- C2: the claim states that a zero population is replaced by the
fallback divisor 1, making rooms_per_person a defined finite value.  The
serving code divides by the raw Population, so a zero population yields an
infinite engineered feature (6 / 0 = +inf under numpy float semantics),
not the finite 6 × 2 / 1 = 12 that the training-side fallback
(`03_feature_engineering.py` lines 106-107) produces. -/
theorem C2_zero_population_no_fallback :
    rooms_per_person recordZeroPop = PyFloat.inf
    ∧ (rooms_per_person recordZeroPop).isFinite = false
    ∧ engineer_features_rpp recordZeroPop.AveRooms recordZeroPop.AveOccup
        recordZeroPop.Population = PyFloat.fin 12
    ∧ rooms_per_person recordZeroPop ≠
        engineer_features_rpp recordZeroPop.AveRooms recordZeroPop.AveOccup
          recordZeroPop.Population := by
  refine ⟨?_, ?_, ?_, ?_⟩
  · norm_num [rooms_per_person, recordZeroPop, pyDiv]
  · norm_num [rooms_per_person, recordZeroPop, pyDiv, PyFloat.isFinite]
  · norm_num [engineer_features_rpp, recordZeroPop, pyDiv, pyMul]
  · norm_num [rooms_per_person, engineer_features_rpp, recordZeroPop, pyDiv, pyMul]
    decide

theorem runLoadCalls_cached (envs : List (Except String Nat)) (h : Nat) :
    runLoadCalls envs (some h) = (envs.map (fun _ => Except.ok h), some h, 0) := by
  induction envs with
  | nil => rfl
  | cons env rest ih => simp [runLoadCalls, load_model_call, ih]

/-- C4: the model cache memoizes only successes.  A first successful call
loads and caches; a failing call propagates the error and leaves the cache
empty (so the load is attempted again and can then succeed); once a call
has succeeded, every subsequent call returns the same handle with no
storage access. -/
theorem C4_cache_only_successes (h : Nat) (e : String)
    (envs : List (Except String Nat)) :
    load_model_call (Except.ok h) Option.none = (Except.ok h, some h, true)
    ∧ load_model_call (Except.error e) Option.none
        = (Except.error e, Option.none, true)
    ∧ (∀ env : Except String Nat,
        load_model_call env (some h) = (Except.ok h, some h, false))
    ∧ runLoadCalls envs (some h) = (envs.map (fun _ => Except.ok h), some h, 0)
    ∧ runLoadCalls [Except.error e, Except.ok h] Option.none
        = ([Except.error e, Except.ok h], some h, 2) := by
  refine ⟨rfl, rfl, fun env => rfl, runLoadCalls_cached envs h, rfl⟩

/-- C5 counterexample: `lru_cache` is not single-flight.  Two first-time
callers whose cache reads interleave before either load (a legal schedule
of the decorator's read-call-store protocol, which holds no lock during
the wrapped call) both execute the load path — two loads, and the callers
finish with distinct handles, contradicting "exactly one execution of the
load path occurs, and all concurrent callers observe the same resulting
handle". -/
theorem C5_interleaved_double_load :
    (lruRun [LruAct.check 0, LruAct.check 1, LruAct.callLoad 0, LruAct.callLoad 1]
      (lruInit 2)).loads = 2
    ∧ (lruRun [LruAct.check 0, LruAct.check 1, LruAct.callLoad 0, LruAct.callLoad 1]
        (lruInit 2)).phases = [LruPhase.done 0, LruPhase.done 1]
    ∧ LruPhase.done 0 ≠ LruPhase.done 1 := by
  decide

theorem seqGetModel_cached (n : Nat) (h l : Nat) :
    seqGetModel n (some h) l = (List.replicate n h, some h, l) := by
  induction n with
  | zero => rfl
  | succ m ih => simp [seqGetModel, ih, List.replicate_succ]

/-- C5 amended: when the first-time calls do not interleave — each
`load_model()` call runs to completion before the next begins, as on this
service's single-threaded event loop where the synchronous body has no
suspension point — the load path executes exactly once across N ≥ 2
callers and every caller observes the same handle; the concrete serialized
schedule of the interleaving protocol agrees. -/
theorem C5_serialized_single_flight (n : Nat) (hn : 2 ≤ n) :
    (seqGetModel n Option.none 0).1 = List.replicate n 0
    ∧ (seqGetModel n Option.none 0).2.1 = some 0
    ∧ (seqGetModel n Option.none 0).2.2 = 1
    ∧ (lruRun [LruAct.check 0, LruAct.callLoad 0, LruAct.check 1, LruAct.callLoad 1]
        (lruInit 2)).loads = 1
    ∧ (lruRun [LruAct.check 0, LruAct.callLoad 0, LruAct.check 1, LruAct.callLoad 1]
        (lruInit 2)).phases = [LruPhase.done 0, LruPhase.done 0] := by
  cases n with
  | zero => omega
  | succ m =>
    refine ⟨?_, ?_, ?_, by decide, by decide⟩ <;>
      simp [seqGetModel, seqGetModel_cached, List.replicate_succ]

/-- Witness for C5's amended theorem at N = 2. -/
theorem C5_serialized_single_flight_witness :
    (seqGetModel 2 Option.none 0).1 = List.replicate 2 0
    ∧ (seqGetModel 2 Option.none 0).2.1 = some 0
    ∧ (seqGetModel 2 Option.none 0).2.2 = 1
    ∧ (lruRun [LruAct.check 0, LruAct.callLoad 0, LruAct.check 1, LruAct.callLoad 1]
        (lruInit 2)).loads = 1
    ∧ (lruRun [LruAct.check 0, LruAct.callLoad 0, LruAct.check 1, LruAct.callLoad 1]
        (lruInit 2)).phases = [LruPhase.done 0, LruPhase.done 0] :=
  C5_serialized_single_flight 2 (by decide)

/-- C6: every invocation of the handler increments the requests counter by
exactly one — including when the earliest fallible step, the model load,
fails immediately, so the increment precedes all computation — and the
successes counter is incremented by exactly one on a successful prediction
and by zero on every failure path; neither counter is ever decremented. -/
theorem C6_counter_discipline (floatRender : PyFloat → String)
    (load : Except String Nat)
    (modelPredict : Nat → List PyFloat → Except String PyFloat)
    (f : HousingFeatures) (m : Metrics) :
    (predict_housing_price floatRender load modelPredict f m).2.1.requests
        = m.requests + 1
    ∧ (predict_housing_price floatRender load modelPredict f m).2.1.successes
        = m.successes +
          (match (predict_housing_price floatRender load modelPredict f m).1 with
           | HandlerOutcome.ok _ => 1
           | HandlerOutcome.httpError _ _ => 0)
    ∧ m.requests ≤ (predict_housing_price floatRender load modelPredict f m).2.1.requests
    ∧ m.successes ≤ (predict_housing_price floatRender load modelPredict f m).2.1.successes := by
  cases load with
  | error e => simp [predict_housing_price]
  | ok a =>
    cases hm : modelPredict a (featureVector f) with
    | error e => simp [predict_housing_price, hm]
    | ok v => simp [predict_housing_price, hm]

/-- C7: for every request, the middleware emits exactly one
"request completed" event on every exit path — also when the inner
application raises — unless the path is in the exclusion set, in which
case it never emits one; and the correlation id in the event is the same
id stamped into the response's X-Request-ID header whenever a response is
produced (for /predict the inner application always produces one, the
framework having converted handler exceptions to responses). -/
theorem C7_completion_event (path method : String) (inbound_id : Option String)
    (gen_id : String) (xff xrip client : Option String)
    (handler : Except String HResponse) :
    (path ∉ EXCLUDE_PATHS →
      (dispatch path method inbound_id gen_id xff xrip client handler).2 =
        [⟨requestIdOf inbound_id gen_id, client_ip_from_request xff xrip client,
          path, method,
          (match handler with
           | Except.ok r => r.status_code
           | Except.error _ => 500), "request_completed"⟩]
      ∧ (∀ r' : HResponse,
          (dispatch path method inbound_id gen_id xff xrip client handler).1
            = Except.ok (some r') →
          alookup "X-Request-ID" r'.headers = some (requestIdOf inbound_id gen_id)))
    ∧ (path ∈ EXCLUDE_PATHS →
        (dispatch path method inbound_id gen_id xff xrip client handler).2 = []) := by
  constructor
  · intro hpath
    cases handler with
    | ok r =>
      refine ⟨by simp [dispatch, hpath], ?_⟩
      intro r' hr'
      simp [dispatch, hpath] at hr'
      rw [← hr']
      exact alookup_dictInsert_self r.headers "X-Request-ID" _
    | error e =>
      refine ⟨by simp [dispatch, hpath], ?_⟩
      intro r' hr'
      simp [dispatch, hpath] at hr'
  · intro hpath
    cases handler with
    | ok r => simp [dispatch, hpath]
    | error e => simp [dispatch, hpath]

/-- Witness for C7 at /predict (one completion event whose correlation id
matches the stamped header) and at the excluded /health path (no event). -/
theorem C7_completion_event_witness :
    (dispatch "/predict" "POST" Option.none "id-1" Option.none Option.none
        Option.none (Except.ok ⟨200, []⟩)).2 =
      [⟨"id-1", "", "/predict", "POST", 200, "request_completed"⟩]
    ∧ alookup "X-Request-ID"
        (HResponse.headers ⟨200, dictInsert ([] : List (String × String))
          "X-Request-ID" "id-1"⟩) = some "id-1"
    ∧ (dispatch "/health" "GET" Option.none "id-1" Option.none Option.none
        Option.none (Except.ok ⟨200, []⟩)).2 = [] := by
  have h1 := (C7_completion_event "/predict" "POST" Option.none "id-1"
    Option.none Option.none Option.none (Except.ok ⟨200, []⟩)).1 (by decide)
  have h2 := (C7_completion_event "/health" "GET" Option.none "id-1"
    Option.none Option.none Option.none (Except.ok ⟨200, []⟩)).2 (by decide)
  exact ⟨h1.1, h1.2 ⟨200, dictInsert [] "X-Request-ID" "id-1"⟩ rfl, h2⟩

/-- C8: the client address is resolved by fixed priority — the first
comma-separated token (whitespace-stripped) of a present, non-empty
forwarded-for header; else a present, non-empty real-ip header
(stripped); else the transport-level peer address; else the empty
string. -/
theorem C8_client_ip_priority (xff xrip client : Option String) (s t : String) :
    (xff = some s → s ≠ "" →
      client_ip_from_request xff xrip client = pyStrip (firstCommaToken s))
    ∧ (pyTruthyStr xff = false → xrip = some t → t ≠ "" →
        client_ip_from_request xff xrip client = pyStrip t)
    ∧ (pyTruthyStr xff = false → pyTruthyStr xrip = false →
        client_ip_from_request xff xrip client =
          (match client with
           | some host => host
           | Option.none => "")) := by
  refine ⟨?_, ?_, ?_⟩
  · intro hx hs
    subst hx
    simp [client_ip_from_request, pyTruthyStr, hs]
  · intro hx ht hts
    subst ht
    simp only [client_ip_from_request, hx, Bool.false_eq_true, if_false]
    simp [pyTruthyStr, hts]
  · intro hx hr
    simp only [client_ip_from_request, hx, hr, Bool.false_eq_true, if_false]

/-- Witness for C8 on concrete headers, one per priority level. -/
theorem C8_client_ip_priority_witness :
    client_ip_from_request (some "10.0.0.1, 10.0.0.2") (some "9.9.9.9")
        (some "8.8.8.8") = "10.0.0.1"
    ∧ client_ip_from_request Option.none (some " 9.9.9.9 ") (some "8.8.8.8")
        = "9.9.9.9"
    ∧ client_ip_from_request Option.none Option.none (some "8.8.8.8")
        = "8.8.8.8" := by
  refine ⟨?_, ?_, ?_⟩
  · have h := (C8_client_ip_priority (some "10.0.0.1, 10.0.0.2") (some "9.9.9.9")
      (some "8.8.8.8") "10.0.0.1, 10.0.0.2" "9.9.9.9").1 rfl (by decide)
    rw [h]
    decide
  · have h := (C8_client_ip_priority Option.none (some " 9.9.9.9 ")
      (some "8.8.8.8") "" " 9.9.9.9 ").2.1 (by decide) rfl (by decide)
    rw [h]
    decide
  · have h := (C8_client_ip_priority Option.none Option.none
      (some "8.8.8.8") "" "").2.2 (by decide) (by decide)
    rw [h]

/-- C10: when the inner application raises on an excluded path (/health or
/metrics), the middleware's `finally` block executes `return response`
with `response` still None: the exception is suppressed and dispatch
yields no response object (and no completion event) instead of propagating
the failure. -/
theorem C10_finally_swallows_exception (path method : String)
    (inbound_id : Option String) (gen_id : String)
    (xff xrip client : Option String) (e : String)
    (hpath : path ∈ EXCLUDE_PATHS) :
    dispatch path method inbound_id gen_id xff xrip client (Except.error e)
      = (Except.ok Option.none, []) := by
  simp [dispatch, hpath]

/-- Witness for C10 at /health with a raising handler. -/
theorem C10_finally_swallows_exception_witness :
    dispatch "/health" "GET" Option.none "id-2" Option.none Option.none
        Option.none (Except.error "boom") = (Except.ok Option.none, []) :=
  C10_finally_swallows_exception "/health" "GET" Option.none "id-2"
    Option.none Option.none Option.none "boom" (by decide)

/-- C9 counterexample: the record carries both an explicit `error` field
(the empty string) and exception information, yet the emitted `error`
value is the rendered traceback, not the explicit value — `payload.get
("error") or self.formatException(...)` discards a falsy explicit error,
so the explicit value does not take precedence as claimed. -/
theorem C9_falsy_error_loses :
    alookup "error" recordEmptyErr.extras = some (PyVal.str "")
    ∧ recordEmptyErr.exc_text = some "Traceback (most recent call last):"
    ∧ alookup "error" (formatPayload "2025-01-01T00:00:00+00:00" recordEmptyErr)
        = some (PyVal.str "Traceback (most recent call last):")
    ∧ PyVal.str "Traceback (most recent call last):" ≠ PyVal.str "" := by
  refine ⟨rfl, rfl, ?_, by decide⟩
  decide

theorem mem_allowFold (extras : List (String × PyVal)) (ks : List String)
    (d : List (String × PyVal)) (k : String) (v : PyVal)
    (h : (k, v) ∈ ks.foldl
      (fun d k =>
        match alookup k extras with
        | some w => dictInsert d k w
        | Option.none => d) d) :
    (∃ c, (k, c) ∈ d) ∨ k ∈ ks := by
  induction ks generalizing d with
  | nil => exact Or.inl ⟨v, h⟩
  | cons k0 ks ih =>
    rw [List.foldl_cons] at h
    rcases ih _ h with hd | hk
    · rcases hd with ⟨c, hc⟩
      cases he : alookup k0 extras with
      | none =>
        rw [he] at hc
        exact Or.inl ⟨c, hc⟩
      | some w =>
        rw [he] at hc
        rcases mem_dictInsert _ _ _ _ _ hc with hc' | hc'
        · exact Or.inl hc'
        · exact Or.inr (hc' ▸ List.mem_cons_self k0 ks)
    · exact Or.inr (List.mem_cons_of_mem k0 hk)

theorem mem_basePayload (ts : String) (r : LogRecord) (k : String) (v : PyVal)
    (h : (k, v) ∈ basePayload ts r) : k ∈ BASE_KEYS := by
  simp [basePayload] at h
  rcases h with ⟨hk, _⟩ | ⟨hk, _⟩ | ⟨hk, _⟩ | ⟨hk, _⟩ | ⟨hk, _⟩ <;>
    simp [BASE_KEYS, hk]

theorem alookup_basePayload_allow (ts : String) (r : LogRecord) (k : String)
    (hk : k ∈ ALLOW_KEYS) : alookup k (basePayload ts r) = Option.none := by
  fin_cases hk <;> simp [basePayload, alookup]

theorem alookup_loggerPayload (ts : String) (r : LogRecord) (k : String)
    (hk : k ∈ ALLOW_KEYS) :
    alookup k (loggerPayload ts r) =
      if (alookup k r.extras).isSome then alookup k r.extras else Option.none := by
  have hne : k ≠ "logger" := by fin_cases hk <;> decide
  rw [loggerPayload, alookup_dictInsert_ne _ _ _ _ hne, allowPayload,
    alookup_allowFold]
  by_cases hs : (alookup k r.extras).isSome
  · simp [hk, hs]
  · simp [hk, hs, alookup_basePayload_allow ts r k hk]

/-- C9 amended: every emitted payload field is either a fixed base field
or an allow-listed structured field; an allow-listed field absent from the
record is never emitted (with `error` also synthesized from exception
info); an allow-listed field present on the record is emitted with its
value; and when the record carries both an explicit `error` field and
exception information, the explicit value is emitted when it is truthy,
while a falsy explicit value is replaced by the rendered traceback (which
is also used when no explicit error exists). -/
theorem C9_allowlist_amended (ts : String) (r : LogRecord) :
    (∀ (k : String) (v : PyVal), (k, v) ∈ formatPayload ts r →
      k ∈ BASE_KEYS ∨ k ∈ ALLOW_KEYS)
    ∧ (∀ k ∈ ALLOW_KEYS, alookup k r.extras = Option.none →
        (k = "error" → r.exc_text = Option.none) →
        alookup k (formatPayload ts r) = Option.none)
    ∧ (∀ k ∈ ALLOW_KEYS, ∀ v, alookup k r.extras = some v → k ≠ "error" →
        alookup k (formatPayload ts r) = some v)
    ∧ (∀ tb, r.exc_text = some tb →
        (∀ v, alookup "error" r.extras = some v → pyTruthy v = true →
          alookup "error" (formatPayload ts r) = some v)
        ∧ (∀ v, alookup "error" r.extras = some v → pyTruthy v = false →
          alookup "error" (formatPayload ts r) = some (PyVal.str tb))
        ∧ (alookup "error" r.extras = Option.none →
          alookup "error" (formatPayload ts r) = some (PyVal.str tb))) := by
  have hlog : ∀ (k : String) (v : PyVal), (k, v) ∈ loggerPayload ts r →
      k ∈ BASE_KEYS ∨ k ∈ ALLOW_KEYS := by
    intro k v hm
    rcases mem_dictInsert _ _ _ _ _ hm with ⟨c, hc⟩ | hk
    · rcases mem_allowFold r.extras ALLOW_KEYS _ k c hc with ⟨c', hc'⟩ | hk
      · exact Or.inl (mem_basePayload ts r k c' hc')
      · exact Or.inr hk
    · subst hk
      exact Or.inl (by decide)
  refine ⟨?_, ?_, ?_, ?_⟩
  · intro k v hm
    cases hexc : r.exc_text with
    | none =>
      rw [formatPayload, hexc] at hm
      exact hlog k v hm
    | some tb =>
      rw [formatPayload, hexc] at hm
      rcases mem_dictInsert _ _ _ _ _ hm with ⟨c, hc⟩ | hk
      · exact hlog k c hc
      · subst hk
        exact Or.inr (by decide)
  · intro k hk habs hexc0
    have hnone : alookup k (loggerPayload ts r) = Option.none := by
      rw [alookup_loggerPayload ts r k hk, habs]
      simp
    cases hexc : r.exc_text with
    | none => rw [formatPayload, hexc]; exact hnone
    | some tb =>
      have hne : k ≠ "error" := by
        intro he
        rw [hexc0 he] at hexc
        exact Option.noConfusion hexc
      rw [formatPayload, hexc]
      simp only []
      rw [alookup_dictInsert_ne _ _ _ _ hne]
      exact hnone
  · intro k hk v hv hne
    have hsome : alookup k (loggerPayload ts r) = some v := by
      rw [alookup_loggerPayload ts r k hk, hv]
      simp
    cases hexc : r.exc_text with
    | none => rw [formatPayload, hexc]; exact hsome
    | some tb =>
      rw [formatPayload, hexc]
      simp only []
      rw [alookup_dictInsert_ne _ _ _ _ hne]
      exact hsome
  · intro tb hexc
    have herrAllow : "error" ∈ ALLOW_KEYS := by decide
    refine ⟨?_, ?_, ?_⟩
    · intro v hv htr
      have hsome : alookup "error" (loggerPayload ts r) = some v := by
        rw [alookup_loggerPayload ts r "error" herrAllow, hv]
        simp
      rw [formatPayload, hexc]
      simp only [hsome, htr]
      exact alookup_dictInsert_self _ _ _
    · intro v hv htr
      have hsome : alookup "error" (loggerPayload ts r) = some v := by
        rw [alookup_loggerPayload ts r "error" herrAllow, hv]
        simp
      rw [formatPayload, hexc]
      simp only [hsome, htr]
      exact alookup_dictInsert_self _ _ _
    · intro habs
      have hnone : alookup "error" (loggerPayload ts r) = Option.none := by
        rw [alookup_loggerPayload ts r "error" herrAllow, habs]
        simp
      rw [formatPayload, hexc]
      simp only [hnone]
      exact alookup_dictInsert_self _ _ _

/-- Witness for C9's amended theorem on concrete records. -/
theorem C9_allowlist_amended_witness :
    alookup "model_path" (formatPayload "t0" recordPlain) = Option.none
    ∧ alookup "event" (formatPayload "t0" recordPlain)
        = some (PyVal.str "prediction_completed")
    ∧ alookup "error" (formatPayload "t0" recordBoom)
        = some (PyVal.str "boom") := by
  refine ⟨?_, ?_, ?_⟩
  · exact (C9_allowlist_amended "t0" recordPlain).2.1 "model_path" (by decide)
      (by decide) (by decide)
  · exact (C9_allowlist_amended "t0" recordPlain).2.2.1 "event" (by decide)
      (PyVal.str "prediction_completed") (by decide) (by decide)
  · exact ((C9_allowlist_amended "t0" recordBoom).2.2.2 "TB" (by decide)).1
      (PyVal.str "boom") (by decide) (by decide)

/-- C3: with a non-empty, duplicate-free explicit key ordering (an
ordering of keys, as the caller in `prediction.py` supplies), the Feature
Fingerprint is exactly the first 16 hex characters of the SHA-256 digest
of the compact JSON serialization of the mapping restricted to those keys
in that order; with no explicit ordering the keys are first sorted
lexicographically; and two payloads holding the same pairs in any
iteration order produce the identical fingerprint in both modes. -/
theorem C3_feature_fingerprint {β : Type} (render : β → String)
    (payload payload' : List (String × β)) (ks : List String)
    (hks : ks ≠ []) (hksnd : ks.Nodup)
    (hpnd : (payload.map Prod.fst).Nodup) (hperm : payload.Perm payload') :
    features_hash render payload (some ks) =
        fingerprint_spec render (ks.map (fun k => (k, alookup k payload)))
    ∧ features_hash render payload Option.none =
        fingerprint_spec render
          ((sortStrings (payload.map Prod.fst)).map
            (fun k => (k, alookup k payload)))
    ∧ (sortStrings (payload.map Prod.fst)).Pairwise (fun a b => a ≤ b)
    ∧ (sortStrings (payload.map Prod.fst)).Perm (payload.map Prod.fst)
    ∧ features_hash render payload (some ks)
        = features_hash render payload' (some ks)
    ∧ features_hash render payload Option.none
        = features_hash render payload' Option.none := by
  have hempty : ks.isEmpty = false := by
    cases ks with
    | nil => exact absurd rfl hks
    | cons a l => rfl
  have expand1 : ∀ pl : List (String × β),
      features_hash render pl (some ks) =
        fingerprint_spec render (ks.map (fun k => (k, alookup k pl))) := by
    intro pl
    simp only [features_hash, hempty, Bool.false_eq_true, if_false,
      fingerprint_spec]
    rw [foldInsert_eq_map (fun k => alookup k pl) ks [] (fun k _ => rfl) hksnd,
      List.nil_append]
  have expand2 : ∀ pl : List (String × β), (pl.map Prod.fst).Nodup →
      features_hash render pl Option.none =
        fingerprint_spec render
          ((sortStrings (pl.map Prod.fst)).map (fun k => (k, alookup k pl))) := by
    intro pl hnd
    have hnd' : (sortStrings (pl.map Prod.fst)).Nodup :=
      ((sortStrings_perm (pl.map Prod.fst)).nodup_iff).mpr hnd
    simp only [features_hash, fingerprint_spec]
    rw [foldInsert_eq_map (fun k => alookup k pl) _ [] (fun k _ => rfl) hnd',
      List.nil_append]
  have hfun : ∀ k, alookup k payload = alookup k payload' :=
    alookup_perm payload payload' hperm hpnd
  have hpnd' : (payload'.map Prod.fst).Nodup :=
    ((hperm.map Prod.fst).nodup_iff).mp hpnd
  have hkeys : sortStrings (payload'.map Prod.fst)
      = sortStrings (payload.map Prod.fst) :=
    sortStrings_eq_of_perm _ _ ((hperm.map Prod.fst).symm)
  refine ⟨expand1 payload, expand2 payload hpnd, sortStrings_sorted _,
    sortStrings_perm _, ?_, ?_⟩
  · rw [expand1 payload, expand1 payload']
    simp only [hfun]
  · rw [expand2 payload hpnd, expand2 payload' hpnd', hkeys]
    simp only [hfun]

/-- Witness for C3 on a concrete two-field payload, its key-order
permutation, and the explicit ordering ["a", "b"]. -/
theorem C3_feature_fingerprint_witness :
    features_hash renderVal [("b", PyVal.int 1), ("a", PyVal.int 2)]
        (some ["a", "b"]) =
      fingerprint_spec renderVal
        (["a", "b"].map
          (fun k => (k, alookup k [("b", PyVal.int 1), ("a", PyVal.int 2)])))
    ∧ features_hash renderVal [("b", PyVal.int 1), ("a", PyVal.int 2)]
        Option.none =
      fingerprint_spec renderVal
        ((sortStrings (List.map Prod.fst [("b", PyVal.int 1), ("a", PyVal.int 2)])).map
          (fun k => (k, alookup k [("b", PyVal.int 1), ("a", PyVal.int 2)])))
    ∧ (sortStrings (List.map Prod.fst
        [("b", PyVal.int 1), ("a", PyVal.int 2)])).Pairwise (fun a b => a ≤ b)
    ∧ (sortStrings (List.map Prod.fst
        [("b", PyVal.int 1), ("a", PyVal.int 2)])).Perm
        (List.map Prod.fst [("b", PyVal.int 1), ("a", PyVal.int 2)])
    ∧ features_hash renderVal [("b", PyVal.int 1), ("a", PyVal.int 2)]
        (some ["a", "b"])
      = features_hash renderVal [("a", PyVal.int 2), ("b", PyVal.int 1)]
        (some ["a", "b"])
    ∧ features_hash renderVal [("b", PyVal.int 1), ("a", PyVal.int 2)]
        Option.none
      = features_hash renderVal [("a", PyVal.int 2), ("b", PyVal.int 1)]
        Option.none :=
  C3_feature_fingerprint renderVal
    [("b", PyVal.int 1), ("a", PyVal.int 2)]
    [("a", PyVal.int 2), ("b", PyVal.int 1)]
    ["a", "b"] (by decide) (by decide) (by decide) (by decide)
